import Mathlib

/-!
Shallow embedding of the persistence core of the rdp_api repository
(src/rdp/crud/crud.py, class Crud) together with proofs about its
upsert, insert, query and lookup operations.

The ORM schema module (rdp/crud/model.py) is imported by crud.py but is
not part of the shown sources; its table shapes are modelled from the
spec (section 6): value_type(id PK, name, unit),
device_type(id PK, name, location),
value(id PK autogenerated, time, value, value_type_id FK).
Everything else is translated directly from crud.py.
-/

namespace Rdp

/-- Modelled from the spec: a value_type row (table value_type(id PK, name,
unit)); the ORM attribute names type_name / type_unit are the ones crud.py
reads and writes. -/
structure ValueType where
  id : Int
  type_name : String
  type_unit : String
deriving DecidableEq

/-- Modelled from the spec: a device_type row (table device_type(id PK,
name, location)), with the attribute names crud.py uses. -/
structure DeviceType where
  id : Int
  name : String
  location : String
deriving DecidableEq

/-- The measurement payload, a float in the source. The core never
inspects, compares or computes with this field — add_value stores it and
get_values returns it verbatim — so it is modelled by an uninterpreted
scalar code with decidable equality. -/
abbrev MeasValue := Int

/-- Modelled from the spec: a value row (table value(id PK autogenerated,
time, value, value_type_id FK -> value_type.id)). -/
structure Value where
  id : Nat
  time : Int
  value : MeasValue
  value_type_id : Int
deriving DecidableEq

/-- Modelled from the spec: the persistent store reached through the
short-lived sessions of crud.py — the three tables, each as its rows in
insertion order, plus the autogenerated primary-key counter for value
rows. -/
structure DB where
  valueTypes : List ValueType
  deviceTypes : List DeviceType
  values : List Value
  nextValueId : Nat
deriving DecidableEq

/-- The state of a freshly created store (Base.metadata.create_all on a
new engine). -/
def DB.empty : DB := ⟨[], [], [], 0⟩

/-- Python truthiness of an optional string argument: `if value_type_name:`
is true exactly when the argument was supplied and is a non-empty string
(None and the empty string are both falsy). -/
def truthy (o : Option String) : Bool :=
  match o with
  | none => false
  | some s => s != ""

/-- Python truthiness of a stored string field: `if not db_type.type_name:`
passes exactly when the field is empty (the unset ORM attribute, None in
Python, is modelled as the empty string, which has the same truthiness). -/
def truthyStr (s : String) : Bool := s != ""

/-- One field of the upsert body of crud.py (lines 42-45 and 46-49, and
the analogous 169-177): if the argument is truthy, overwrite; else if the
stored field is falsy, synthesize the default; else keep the stored
value. -/
def upsertField (stored : String) (param : Option String) (dflt : String) : String :=
  if truthy param then param.getD ""
  else if !truthyStr stored then dflt
  else stored

/-- The default name "TYPE_%d" synthesized on line 45 of crud.py. -/
def defaultTypeName (k : Int) : String := "TYPE_" ++ toString k

/-- The default unit "UNIT_%d" synthesized on line 49 of crud.py. -/
def defaultTypeUnit (k : Int) : String := "UNIT_" ++ toString k

/-- The default device name "DEVICE_TYPE_%d" synthesized on line 172 of
crud.py. -/
def defaultDeviceName (k : Int) : String := "DEVICE_TYPE_" ++ toString k

/-- The default device location "DEVICE_LOCATION_%d" synthesized on line
177 of crud.py. -/
def defaultDeviceLocation (k : Int) : String := "DEVICE_LOCATION_" ++ toString k

/-- The rows of select(ValueType).where(ValueType.id == k). -/
def selectValueTypes (db : DB) (k : Int) : List ValueType :=
  db.valueTypes.filter (fun t => t.id == k)

/-- The rows of select(DeviceType).where(DeviceType.id == k). -/
def selectDeviceTypes (db : DB) (k : Int) : List DeviceType :=
  db.deviceTypes.filter (fun d => d.id == k)

/-- Crud.add_or_update_value_type (crud.py lines 19-52). The for-loop over
the query result keeps the last matching row; a found row is mutated in
place and committed (an UPDATE keyed on the primary key), a missing row is
a fresh INSERT appended at the end of the table. Every claim supplies the
id, so the value_type_id=None autoincrement path is not modelled. Returns
the committed state together with the persisted row the source returns. -/
def add_or_update_value_type (db : DB) (value_type_id : Int)
    (value_type_name : Option String) (value_type_unit : Option String) :
    DB × ValueType :=
  match (selectValueTypes db value_type_id).getLast? with
  | some t =>
      let t' : ValueType :=
        { t with
          type_name := upsertField t.type_name value_type_name (defaultTypeName value_type_id)
          type_unit := upsertField t.type_unit value_type_unit (defaultTypeUnit value_type_id) }
      ({ db with
          valueTypes := db.valueTypes.map (fun x => if x.id == value_type_id then t' else x) },
       t')
  | none =>
      let t' : ValueType :=
        ⟨value_type_id,
         upsertField "" value_type_name (defaultTypeName value_type_id),
         upsertField "" value_type_unit (defaultTypeUnit value_type_id)⟩
      ({ db with valueTypes := db.valueTypes ++ [t'] }, t')

/-- Crud.add_or_update_device (crud.py lines 143-186); same shape as
add_or_update_value_type with the device defaults. -/
def add_or_update_device (db : DB) (device_type_id : Int)
    (device_name : Option String) (device_location : Option String) :
    DB × DeviceType :=
  match (selectDeviceTypes db device_type_id).getLast? with
  | some d =>
      let d' : DeviceType :=
        { d with
          name := upsertField d.name device_name (defaultDeviceName device_type_id)
          location := upsertField d.location device_location (defaultDeviceLocation device_type_id) }
      ({ db with
          deviceTypes := db.deviceTypes.map (fun x => if x.id == device_type_id then d' else x) },
       d')
  | none =>
      let d' : DeviceType :=
        ⟨device_type_id,
         upsertField "" device_name (defaultDeviceName device_type_id),
         upsertField "" device_location (defaultDeviceLocation device_type_id)⟩
      ({ db with deviceTypes := db.deviceTypes ++ [d'] }, d')

/-- The store state durably committed by the inner
add_or_update_value_type call of Crud.add_value: that call opens its own
session and commits (crud.py line 51) before add_value's session commits
the Value row (line 69). -/
def add_value_afterUpsertCommit (db : DB) (value_type : Int) : DB :=
  (add_or_update_value_type db value_type none none).1

/-- Crud.add_value (crud.py lines 54-72): resolve the owning ValueType via
the upsert (which commits on its own), then insert a Value row linked to
the resolved row (the value_type relationship populates the value_type_id
foreign key with the resolved row's id). The autogenerated primary key is
the next counter value. -/
def add_value (db : DB) (value_time : Int) (value_type : Int) (value_value : MeasValue) : DB :=
  let r := add_or_update_value_type db value_type none none
  { r.1 with
    values := r.1.values ++ [⟨r.1.nextValueId, value_time, value_value, r.2.id⟩]
    nextValueId := r.1.nextValueId + 1 }

/-- One Value row passes the filters of Crud.get_values: when a type id is
given, the query joins Value.value_type and keeps rows whose owning type
row exists and has that id (lines 114-115); start and stop bound the time
inclusively (lines 116-119; the source calls the second bound end). -/
def passesFilters (db : DB) (ovt : Option Int) (ostart ostop : Option Int) (v : Value) : Bool :=
  (match ovt with
   | some k => v.value_type_id == k && db.valueTypes.any (fun t => t.id == k)
   | none => true)
  && (match ostart with
      | some s => decide (s ≤ v.time)
      | none => true)
  && (match ostop with
      | some e => decide (v.time ≤ e)
      | none => true)

/-- Crud.get_values (crud.py lines 97-124): the filtered rows, ORDER BY
time ascending (line 120). SQL guarantees only that the result is an
ascending-by-time permutation of the filtered rows, ties in unspecified
order; the model fixes the stable insertion sort so the function stays
executable. -/
def get_values (db : DB) (value_type_id : Option Int) (start : Option Int) (stop : Option Int) :
    List Value :=
  (db.values.filter (passesFilters db value_type_id start stop)).insertionSort
    (fun a b => a.time ≤ b.time)

/-- The SQLAlchemy exceptions crud.py lets escape from its lookups:
NoResultFound for an empty result and MultipleResultsFound when a query
expected to produce at most one row produced several. -/
inductive DbError where
  | noResultFound
  | multipleResultsFound
deriving DecidableEq

/-- Decidable equality of lookup outcomes, so concrete lookup results can
be checked by evaluation. -/
instance {ε α : Type} [DecidableEq ε] [DecidableEq α] : DecidableEq (Except ε α) := by
  intro x y
  cases x <;> cases y
  case error.error a b =>
    exact if h : a = b then .isTrue (by rw [h]) else .isFalse (by simp [h])
  case error.ok a b => exact .isFalse (by simp)
  case ok.error a b => exact .isFalse (by simp)
  case ok.ok a b =>
    exact if h : a = b then .isTrue (by rw [h]) else .isFalse (by simp [h])

/-- ScalarResult.one as used on line 95: zero rows raise NoResultFound,
two or more raise MultipleResultsFound, a single row is returned. -/
def scalarsOne {α : Type} (rows : List α) : Except DbError α :=
  match rows with
  | [] => .error .noResultFound
  | [t] => .ok t
  | _ => .error .multipleResultsFound

/-- ScalarResult.one_or_none as used on line 137: zero rows give none, two
or more raise MultipleResultsFound, a single row gives some. -/
def scalarsOneOrNone {α : Type} (rows : List α) : Except DbError (Option α) :=
  match rows with
  | [] => .ok none
  | [t] => .ok (some t)
  | _ => .error .multipleResultsFound

/-- Crud.get_value_type (crud.py lines 84-95): one() on the rows with the
given id. -/
def get_value_type (db : DB) (value_type_id : Int) : Except DbError ValueType :=
  scalarsOne (selectValueTypes db value_type_id)

/-- Crud.get_device_type (crud.py lines 126-140): one_or_none() on the
rows with the given id, then a manually raised NoResultFound when the
result is None. -/
def get_device_type (db : DB) (device_type_id : Int) : Except DbError DeviceType :=
  match scalarsOneOrNone (selectDeviceTypes db device_type_id) with
  | .error e => .error e
  | .ok none => .error .noResultFound
  | .ok (some d) => .ok d

/-- A state-changing call of the persistence core (the reads get_values,
get_value_type, get_value_types and get_device_type do not change the
store). -/
inductive Op where
  | upsertValueType (id : Int) (name unit : Option String)
  | upsertDevice (id : Int) (name location : Option String)
  | insertValue (time : Int) (valueTypeId : Int) (value : MeasValue)

/-- Run one core operation against the store. -/
def applyOp (db : DB) : Op → DB
  | .upsertValueType k n u => (add_or_update_value_type db k n u).1
  | .upsertDevice k n l => (add_or_update_device db k n l).1
  | .insertValue t k v => add_value db t k v

/-- Run a sequence of core operations against the store. -/
def applyOps (db : DB) (ops : List Op) : DB := ops.foldl applyOp db

/-- Every stored dimension row has its string fields non-empty: each
ValueType has a non-empty name and unit and each DeviceType a non-empty
name and location (the default-synthesis invariant of the spec, as an
executable check). -/
def dimensionDefaultsOk (db : DB) : Bool :=
  db.valueTypes.all (fun t => t.type_name != "" && t.type_unit != "") &&
  db.deviceTypes.all (fun d => d.name != "" && d.location != "")

/-- Every stored Value references an existing ValueType row (the
referential-integrity invariant of the spec, as an executable check). -/
def refIntegrity (db : DB) : Bool :=
  db.values.all (fun v => db.valueTypes.any (fun t => t.id == v.value_type_id))

/-- A small example store for the concrete witnesses: three measurements of
type 1 inserted at times 5, 1 and 3. -/
def dbTimes : DB := add_value (add_value (add_value DB.empty 5 1 10) 1 1 11) 3 1 12

/-- A store holding exactly one ValueType row, with id 1. -/
def dbOneVT : DB := ⟨[⟨1, "n", "u"⟩], [], [], 0⟩

/-- A store holding two ValueType rows that share id 1 — unreachable
through the core operations, used only to exercise the multiple-result
branch of the lookup. -/
def dbDupVT : DB := ⟨[⟨1, "n", "u"⟩, ⟨1, "m", "w"⟩], [], [], 0⟩

/-- A store holding exactly one DeviceType row, with id 1. -/
def dbOneDev : DB := ⟨[], [⟨1, "a", "b"⟩], [], 0⟩

/-- A store holding two DeviceType rows that share id 1. -/
def dbDupDev : DB := ⟨[], [⟨1, "a", "b"⟩, ⟨1, "c", "d"⟩], [], 0⟩

/-- The operation sequence used by the invariant witness. -/
def opsSample : List Op :=
  [.insertValue 5 1 10, .upsertDevice 3 none none, .upsertValueType 2 (some "x") none]

/-- Ascending time is a total relation on Value rows (for the sortedness of
the query result). -/
instance : IsTotal Value (fun a b => a.time ≤ b.time) :=
  ⟨fun a b => Int.le_total a.time b.time⟩

/-- Ascending time is a transitive relation on Value rows. -/
instance : IsTrans Value (fun a b => a.time ≤ b.time) :=
  ⟨fun _ _ _ h1 h2 => le_trans h1 h2⟩

theorem upsertField_absent_empty (d : String) : upsertField "" none d = d := rfl

theorem upsertField_absent_kept (s : String) (hs : s ≠ "") (d : String) :
    upsertField s none d = s := by
  simp [upsertField, truthy, truthyStr, hs]

theorem upsertField_supplied (s : String) (p : String) (hp : p ≠ "") (d : String) :
    upsertField s (some p) d = p := by
  simp [upsertField, truthy, hp]

theorem upsertField_ne_empty (stored : String) (param : Option String) (dflt : String)
    (hd : dflt ≠ "") : upsertField stored param dflt ≠ "" := by
  unfold upsertField
  cases param with
  | none =>
    by_cases hs : stored = ""
    · simp [truthy, truthyStr, hs, hd]
    · simp [truthy, truthyStr, hs]
  | some p =>
    by_cases hp : p = ""
    · by_cases hs : stored = ""
      · simp [truthy, truthyStr, hp, hs, hd]
      · simp [truthy, truthyStr, hp, hs]
    · simp [truthy, hp]

theorem append_ne_empty (s t : String) (h : s.length ≠ 0) : s ++ t ≠ "" := by
  intro he
  apply h
  have hl := congrArg String.length he
  rw [String.length_append] at hl
  have h0 : ("" : String).length = 0 := rfl
  omega

theorem defaultTypeName_ne_empty (k : Int) : defaultTypeName k ≠ "" :=
  append_ne_empty _ _ (by decide)

theorem defaultTypeUnit_ne_empty (k : Int) : defaultTypeUnit k ≠ "" :=
  append_ne_empty _ _ (by decide)

theorem defaultDeviceName_ne_empty (k : Int) : defaultDeviceName k ≠ "" :=
  append_ne_empty _ _ (by decide)

theorem defaultDeviceLocation_ne_empty (k : Int) : defaultDeviceLocation k ≠ "" :=
  append_ne_empty _ _ (by decide)

theorem filter_map_update {α : Type} (q : α → Bool) (t' : α) (ht : q t' = true) (l : List α) :
    (l.map (fun x => if q x then t' else x)).filter q
      = (l.filter q).map (fun _ => t') := by
  induction l with
  | nil => rfl
  | cons a as ih =>
    by_cases h : q a = true
    · simp [h, ht, ih]
    · simp [h, ih]

theorem filter_not_map_update {α : Type} (q : α → Bool) (t' : α) (ht : q t' = true)
    (l : List α) :
    (l.map (fun x => if q x then t' else x)).filter (fun x => !q x)
      = l.filter (fun x => !q x) := by
  induction l with
  | nil => rfl
  | cons a as ih =>
    by_cases h : q a = true
    · simp [h, ht, ih]
    · simp [h, ih]

theorem map_update_id {α : Type} (q : α → Bool) (t' : α) (l : List α)
    (h : ∀ x ∈ l, q x = false) :
    l.map (fun x => if q x then t' else x) = l := by
  induction l with
  | nil => rfl
  | cons a as ih =>
    have ha := h a (List.mem_cons_self a as)
    simp only [List.map_cons, ha]
    rw [ih (fun x hx => h x (List.mem_cons_of_mem a hx))]
    simp

theorem upsertVT_frame (db : DB) (k : Int) (n u : Option String) :
    (add_or_update_value_type db k n u).1.deviceTypes = db.deviceTypes ∧
    (add_or_update_value_type db k n u).1.values = db.values ∧
    (add_or_update_value_type db k n u).1.nextValueId = db.nextValueId := by
  cases hl : (selectValueTypes db k).getLast? <;>
    simp [add_or_update_value_type, hl]

theorem upsertDev_frame (db : DB) (k : Int) (n u : Option String) :
    (add_or_update_device db k n u).1.valueTypes = db.valueTypes ∧
    (add_or_update_device db k n u).1.values = db.values ∧
    (add_or_update_device db k n u).1.nextValueId = db.nextValueId := by
  cases hl : (selectDeviceTypes db k).getLast? <;>
    simp [add_or_update_device, hl]

theorem upsertVT_ret_id (db : DB) (k : Int) (n u : Option String) :
    (add_or_update_value_type db k n u).2.id = k := by
  cases hl : (selectValueTypes db k).getLast? with
  | none => simp [add_or_update_value_type, hl]
  | some t =>
    have hm : t ∈ selectValueTypes db k := List.mem_of_mem_getLast? hl
    have hid : t.id = k := by
      simp [selectValueTypes, List.mem_filter] at hm
      exact hm.2
    simp [add_or_update_value_type, hl, hid]

theorem upsertDev_ret_id (db : DB) (k : Int) (n u : Option String) :
    (add_or_update_device db k n u).2.id = k := by
  cases hl : (selectDeviceTypes db k).getLast? with
  | none => simp [add_or_update_device, hl]
  | some d =>
    have hm : d ∈ selectDeviceTypes db k := List.mem_of_mem_getLast? hl
    have hid : d.id = k := by
      simp [selectDeviceTypes, List.mem_filter] at hm
      exact hm.2
    simp [add_or_update_device, hl, hid]

theorem upsertVT_create (db : DB) (k : Int) (n u : Option String)
    (h : selectValueTypes db k = []) :
    add_or_update_value_type db k n u =
      ({ db with valueTypes := db.valueTypes ++
          [⟨k, upsertField "" n (defaultTypeName k), upsertField "" u (defaultTypeUnit k)⟩] },
       ⟨k, upsertField "" n (defaultTypeName k), upsertField "" u (defaultTypeUnit k)⟩) := by
  have hl : (selectValueTypes db k).getLast? = none := by rw [h]; rfl
  simp [add_or_update_value_type, hl]

theorem selectVT_after_create (db : DB) (k : Int) (t' : ValueType)
    (h : selectValueTypes db k = []) (ht : t'.id = k) :
    selectValueTypes { db with valueTypes := db.valueTypes ++ [t'] } k = [t'] := by
  simp only [selectValueTypes] at h ⊢
  rw [List.filter_append, h]
  simp [ht]

theorem selectVT_after_update (db : DB) (k : Int) (t' : ValueType) (ht : t'.id = k) :
    selectValueTypes
        { db with valueTypes := db.valueTypes.map (fun x => if x.id == k then t' else x) } k
      = (selectValueTypes db k).map (fun _ => t') := by
  simp only [selectValueTypes]
  exact filter_map_update _ _ (by simp [ht]) _

theorem upsertVT_update (db : DB) (k : Int) (n u : Option String) (t : ValueType)
    (hl : (selectValueTypes db k).getLast? = some t) :
    add_or_update_value_type db k n u =
      ({ db with valueTypes := db.valueTypes.map (fun x => if x.id == k then
            ⟨t.id, upsertField t.type_name n (defaultTypeName k),
             upsertField t.type_unit u (defaultTypeUnit k)⟩ else x) },
       ⟨t.id, upsertField t.type_name n (defaultTypeName k),
        upsertField t.type_unit u (defaultTypeUnit k)⟩) := by
  simp [add_or_update_value_type, hl]

theorem selectVT_nil_forall (db : DB) (k : Int) (h : selectValueTypes db k = []) :
    ∀ x ∈ db.valueTypes, (x.id == k) = false := by
  intro x hx
  have h' : List.filter (fun t => t.id == k) db.valueTypes = [] := h
  have := List.filter_eq_nil_iff.mp h' x hx
  simpa using this

theorem upsertDev_create (db : DB) (k : Int) (n u : Option String)
    (h : selectDeviceTypes db k = []) :
    add_or_update_device db k n u =
      ({ db with deviceTypes := db.deviceTypes ++
          [⟨k, upsertField "" n (defaultDeviceName k), upsertField "" u (defaultDeviceLocation k)⟩] },
       ⟨k, upsertField "" n (defaultDeviceName k), upsertField "" u (defaultDeviceLocation k)⟩) := by
  have hl : (selectDeviceTypes db k).getLast? = none := by rw [h]; rfl
  simp [add_or_update_device, hl]

theorem addValue_unfold (db : DB) (t k : Int) (v : MeasValue) :
    (add_value db t k v).values = db.values ++ [⟨db.nextValueId, t, v, k⟩] ∧
    (add_value db t k v).nextValueId = db.nextValueId + 1 ∧
    (add_value db t k v).valueTypes = (add_value_afterUpsertCommit db k).valueTypes ∧
    (add_value db t k v).deviceTypes = db.deviceTypes := by
  have hf := upsertVT_frame db k none none
  refine ⟨?_, ?_, ?_, ?_⟩
  · simp [add_value, hf.2.1, hf.2.2, upsertVT_ret_id]
  · simp [add_value, hf.2.2]
  · simp [add_value, add_value_afterUpsertCommit]
  · simp [add_value, hf.1]

/-- C1: on a store holding no ValueType row with the given id, two
successive add_or_update_value_type calls that supply neither a name nor a
unit produce exactly one row with that id, whose name is TYPE_<id> and
whose unit is UNIT_<id>; the second call leaves the entire store
unchanged. -/
theorem upsertValueType_twice_idempotent_defaults (db : DB) (k : Int)
    (h : selectValueTypes db k = []) :
    (add_or_update_value_type db k none none).1.valueTypes
        = db.valueTypes ++ [⟨k, defaultTypeName k, defaultTypeUnit k⟩] ∧
    selectValueTypes (add_or_update_value_type db k none none).1 k
        = [⟨k, defaultTypeName k, defaultTypeUnit k⟩] ∧
    (add_or_update_value_type (add_or_update_value_type db k none none).1 k none none).1
        = (add_or_update_value_type db k none none).1 := by
  have hc := upsertVT_create db k none none h
  rw [upsertField_absent_empty, upsertField_absent_empty] at hc
  have hsel1 : selectValueTypes (add_or_update_value_type db k none none).1 k
      = [⟨k, defaultTypeName k, defaultTypeUnit k⟩] := by
    rw [hc]
    exact selectVT_after_create db k _ h rfl
  refine ⟨by rw [hc], hsel1, ?_⟩
  have hl1 : (selectValueTypes (add_or_update_value_type db k none none).1 k).getLast?
      = some ⟨k, defaultTypeName k, defaultTypeUnit k⟩ := by rw [hsel1]; rfl
  rw [add_or_update_value_type]
  rw [hl1]
  simp only [upsertField_absent_kept _ (defaultTypeName_ne_empty k),
    upsertField_absent_kept _ (defaultTypeUnit_ne_empty k)]
  rw [hc]
  simp only [List.map_append]
  rw [map_update_id _ _ _ (selectVT_nil_forall db k h)]
  simp

/-- Concrete instance of the C1 theorem at id 7 on the fresh store. -/
theorem upsertValueType_twice_idempotent_defaults_witness :
    selectValueTypes DB.empty 7 = [] ∧
    selectValueTypes (add_or_update_value_type DB.empty 7 none none).1 7
        = [⟨7, defaultTypeName 7, defaultTypeUnit 7⟩] ∧
    (add_or_update_value_type (add_or_update_value_type DB.empty 7 none none).1 7 none none).1
        = (add_or_update_value_type DB.empty 7 none none).1 :=
  ⟨rfl, (upsertValueType_twice_idempotent_defaults DB.empty 7 rfl).2.1,
    (upsertValueType_twice_idempotent_defaults DB.empty 7 rfl).2.2⟩

/-- C3: inserting a measurement whose type id has no ValueType row
succeeds and atomically extends the tables: the upsert path creates the
row ⟨k, TYPE_<k>, UNIT_<k>⟩ and one Value row with the given time, value
and value_type_id k is appended (add_value is a total function in the
model: no error is possible on this path). -/
theorem addValue_autovivifies_missing_type (db : DB) (t k : Int) (v : MeasValue)
    (h : selectValueTypes db k = []) :
    add_value db t k v =
      ⟨db.valueTypes ++ [⟨k, defaultTypeName k, defaultTypeUnit k⟩],
       db.deviceTypes,
       db.values ++ [⟨db.nextValueId, t, v, k⟩],
       db.nextValueId + 1⟩ := by
  have hc := upsertVT_create db k none none h
  rw [upsertField_absent_empty, upsertField_absent_empty] at hc
  simp [add_value, hc]

/-- Concrete instance of the C3 theorem: time 5, unknown type 42,
payload code 314 on the fresh store. -/
theorem addValue_autovivifies_missing_type_witness :
    selectValueTypes DB.empty 42 = [] ∧
    add_value DB.empty 5 42 314 =
      ⟨[⟨42, defaultTypeName 42, defaultTypeUnit 42⟩], [], [⟨0, 5, 314, 42⟩], 1⟩ :=
  ⟨rfl, addValue_autovivifies_missing_type DB.empty 5 42 314 rfl⟩

/-- C5 counterexample: add_value's dimension upsert commits in its own
session (crud.py line 51) before add_value's session commits the Value row
(line 69), so the two writes are not one atomic unit. On the fresh store,
inserting a value of the unknown type 42 reaches an intermediate committed
state that already differs from the initial store: it holds the newly
created ValueType 42 and no Value row. If the second commit then fails,
this state persists — the freshly created ValueType is left behind,
contradicting the claim that no state change persists on failure. -/
theorem addValue_dimension_commit_persists :
    add_value_afterUpsertCommit DB.empty 42 ≠ DB.empty ∧
    (add_value_afterUpsertCommit DB.empty 42).valueTypes
        = [⟨42, "TYPE_42", "UNIT_42"⟩] ∧
    (add_value_afterUpsertCommit DB.empty 42).values = [] := by
  refine ⟨?_, ?_, ?_⟩ <;> decide

/-- C5 as amended: add_value is two separately committed transactions, not
one. The first (the inner add_or_update_value_type session) creates the
missing ValueType row with synthesized defaults; the second appends the
Value row and changes no dimension table. A failure of the second commit
therefore loses only the Value row, while the auto-created ValueType of
the already-committed first transaction persists. -/
theorem addValue_two_commit_decomposition (db : DB) (t k : Int) (v : MeasValue) :
    (add_value db t k v).valueTypes = (add_value_afterUpsertCommit db k).valueTypes ∧
    (add_value db t k v).deviceTypes = (add_value_afterUpsertCommit db k).deviceTypes ∧
    (add_value db t k v).values
        = (add_value_afterUpsertCommit db k).values
          ++ [⟨(add_value_afterUpsertCommit db k).nextValueId, t, v, k⟩] ∧
    (selectValueTypes db k = [] →
        selectValueTypes (add_value_afterUpsertCommit db k) k
          = [⟨k, defaultTypeName k, defaultTypeUnit k⟩]) := by
  have hf := upsertVT_frame db k none none
  refine ⟨?_, ?_, ?_, ?_⟩
  · simp [add_value, add_value_afterUpsertCommit]
  · simp [add_value, add_value_afterUpsertCommit]
  · simp [add_value, add_value_afterUpsertCommit, upsertVT_ret_id]
  · intro h
    have hc := upsertVT_create db k none none h
    rw [upsertField_absent_empty, upsertField_absent_empty] at hc
    rw [add_value_afterUpsertCommit, hc]
    exact selectVT_after_create db k _ h rfl

/-- Concrete instance of the amended C5 theorem on the fresh store. -/
theorem addValue_two_commit_decomposition_witness :
    selectValueTypes DB.empty 42 = [] ∧
    selectValueTypes (add_value_afterUpsertCommit DB.empty 42) 42
        = [⟨42, defaultTypeName 42, defaultTypeUnit 42⟩] :=
  ⟨rfl, (addValue_two_commit_decomposition DB.empty 5 42 314).2.2.2 rfl⟩

/-- C8: value persistence is append-only with no deduplication — two
add_value calls with the same (time, type id, payload) triple both
succeed, and the store afterwards holds two distinct Value rows (their
autogenerated primary keys differ) carrying that same triple. -/
theorem addValue_append_only_no_dedup (db : DB) (t k : Int) (v : MeasValue) :
    (add_value (add_value db t k v) t k v).values
      = db.values ++ [⟨db.nextValueId, t, v, k⟩, ⟨db.nextValueId + 1, t, v, k⟩] ∧
    (⟨db.nextValueId, t, v, k⟩ : Value) ≠ ⟨db.nextValueId + 1, t, v, k⟩ := by
  have h1 := addValue_unfold db t k v
  have h2 := addValue_unfold (add_value db t k v) t k v
  constructor
  · rw [h2.1, h1.1, h1.2.1]
    simp
  · simp [Value.mk.injEq]

/-- C2: on a store with at most one ValueType row with the given id (the
primary-key invariant), supplying a non-empty name X and then, in a second
call, a non-empty unit Y leaves exactly one row with that id, carrying
name X and unit Y — the supplied non-empty argument overwrites its field
and the absent argument leaves the other, non-empty, field untouched. -/
theorem upsertValueType_partial_updates_compose (db : DB) (k : Int) (X Y : String)
    (hX : X ≠ "") (hY : Y ≠ "")
    (huniq : (selectValueTypes db k).length ≤ 1) :
    selectValueTypes
        (add_or_update_value_type
          (add_or_update_value_type db k (some X) none).1 k none (some Y)).1 k
      = [⟨k, X, Y⟩] := by
  cases hsel : selectValueTypes db k with
  | nil =>
    have hc := upsertVT_create db k (some X) none hsel
    rw [upsertField_supplied _ _ hX, upsertField_absent_empty] at hc
    have hsel1 : selectValueTypes (add_or_update_value_type db k (some X) none).1 k
        = [⟨k, X, defaultTypeUnit k⟩] := by
      rw [hc]
      exact selectVT_after_create db k _ hsel rfl
    have hl1 : (selectValueTypes (add_or_update_value_type db k (some X) none).1 k).getLast?
        = some ⟨k, X, defaultTypeUnit k⟩ := by rw [hsel1]; rfl
    have hc2 := upsertVT_update _ k none (some Y) _ hl1
    simp only at hc2
    rw [upsertField_absent_kept _ hX, upsertField_supplied _ _ hY] at hc2
    rw [hc2]
    rw [selectVT_after_update _ k _ rfl, hsel1]
    rfl
  | cons t rest =>
    cases rest with
    | cons t2 rest2 => simp [hsel] at huniq
    | nil =>
      have htid : t.id = k := by
        have hm : t ∈ selectValueTypes db k := by rw [hsel]; exact List.mem_cons_self t []
        simp [selectValueTypes, List.mem_filter] at hm
        exact hm.2
      have hl : (selectValueTypes db k).getLast? = some t := by rw [hsel]; rfl
      have hc := upsertVT_update db k (some X) none t hl
      rw [upsertField_supplied _ _ hX] at hc
      have hu1 : upsertField t.type_unit none (defaultTypeUnit k) ≠ "" :=
        upsertField_ne_empty _ _ _ (defaultTypeUnit_ne_empty k)
      have hsel1 : selectValueTypes (add_or_update_value_type db k (some X) none).1 k
          = [⟨t.id, X, upsertField t.type_unit none (defaultTypeUnit k)⟩] := by
        rw [hc]
        rw [selectVT_after_update _ k
          ⟨t.id, X, upsertField t.type_unit none (defaultTypeUnit k)⟩ htid, hsel]
        rfl
      have hl1 : (selectValueTypes (add_or_update_value_type db k (some X) none).1 k).getLast?
          = some ⟨t.id, X, upsertField t.type_unit none (defaultTypeUnit k)⟩ := by
        rw [hsel1]; rfl
      have hc2 := upsertVT_update _ k none (some Y) _ hl1
      simp only at hc2
      rw [upsertField_absent_kept _ hX, upsertField_supplied _ _ hY] at hc2
      rw [hc2]
      rw [selectVT_after_update _ k ⟨t.id, X, Y⟩ htid, hsel1]
      simp [htid]

/-- Concrete instance of the C2 theorem at id 7 on the fresh store, with
name "Temperature" and unit "K". -/
theorem upsertValueType_partial_updates_compose_witness :
    selectValueTypes
        (add_or_update_value_type
          (add_or_update_value_type DB.empty 7 (some "Temperature") none).1
          7 none (some "K")).1 7
      = [⟨7, "Temperature", "K"⟩] :=
  upsertValueType_partial_updates_compose DB.empty 7 "Temperature" "K"
    (by decide) (by decide) (by decide)

theorem passesFilters_char (db : DB) (ovt ostart ostop : Option Int) (v : Value)
    (hany : ∀ k, v.value_type_id = k → db.valueTypes.any (fun t => t.id == k) = true) :
    passesFilters db ovt ostart ostop v = true ↔
      ((∀ k, ovt = some k → v.value_type_id = k) ∧
       (∀ s, ostart = some s → s ≤ v.time) ∧
       (∀ e, ostop = some e → v.time ≤ e)) := by
  unfold passesFilters
  simp only [Bool.and_eq_true]
  constructor
  · rintro ⟨⟨h1, h2⟩, h3⟩
    refine ⟨?_, ?_, ?_⟩
    · intro k hk
      subst hk
      simp at h1
      exact h1.1
    · intro s hs
      subst hs
      simpa using h2
    · intro e he
      subst he
      simpa using h3
  · rintro ⟨h1, h2, h3⟩
    refine ⟨⟨?_, ?_⟩, ?_⟩
    · cases ovt with
      | none => rfl
      | some k =>
        have hk := h1 k rfl
        simp [hk, hany k hk]
    · cases ostart with
      | none => rfl
      | some s => simpa using h2 s rfl
    · cases ostop with
      | none => rfl
      | some e => simpa using h3 e rfl

/-- C4: the query returns exactly the Values passing the conjunction of
the supplied filters — owning-type id equality, and inclusive lower and
upper time bounds — ordered by ascending time; with no filters it returns
every Value, and when nothing matches it returns the empty sequence
rather than an error. The membership characterization assumes the
referential-integrity invariant (every stored Value references an
existing ValueType row), which holds in every store the core operations
can produce; without it the inner join of the type filter would also
drop dangling rows. -/
theorem getValues_filtered_sorted (db : DB) (ovt ostart ostop : Option Int)
    (h : refIntegrity db = true) :
    (get_values db ovt ostart ostop).Perm
        (db.values.filter (passesFilters db ovt ostart ostop)) ∧
    (get_values db ovt ostart ostop).Pairwise (fun a b => a.time ≤ b.time) ∧
    (∀ v, v ∈ get_values db ovt ostart ostop ↔
        (v ∈ db.values ∧
         (∀ k, ovt = some k → v.value_type_id = k) ∧
         (∀ s, ostart = some s → s ≤ v.time) ∧
         (∀ e, ostop = some e → v.time ≤ e))) ∧
    (get_values db none none none).Perm db.values ∧
    (db.values.filter (passesFilters db ovt ostart ostop) = [] →
        get_values db ovt ostart ostop = []) := by
  have h' : ∀ x ∈ db.values, db.valueTypes.any (fun t => t.id == x.value_type_id) = true := by
    rw [refIntegrity, List.all_eq_true] at h
    exact h
  have hany : ∀ v, v ∈ db.values → ∀ k, v.value_type_id = k →
      db.valueTypes.any (fun t => t.id == k) = true := by
    intro v hv k hk
    have hx : db.valueTypes.any (fun t => t.id == v.value_type_id) = true := h' v hv
    rw [hk] at hx
    exact hx
  have hperm : (get_values db ovt ostart ostop).Perm
      (db.values.filter (passesFilters db ovt ostart ostop)) :=
    List.perm_insertionSort _ _
  refine ⟨hperm, List.sorted_insertionSort _ _, ?_, ?_, ?_⟩
  · intro v
    constructor
    · intro hvmem
      have hvf : v ∈ db.values.filter (passesFilters db ovt ostart ostop) :=
        hperm.mem_iff.mp hvmem
      rw [List.mem_filter] at hvf
      obtain ⟨hv, hp⟩ := hvf
      exact ⟨hv, (passesFilters_char db ovt ostart ostop v (hany v hv)).mp hp⟩
    · rintro ⟨hv, hconds⟩
      have hp := (passesFilters_char db ovt ostart ostop v (hany v hv)).mpr hconds
      exact hperm.mem_iff.mpr (List.mem_filter.mpr ⟨hv, hp⟩)
  · have hall : db.values.filter (passesFilters db none none none) = db.values := by
      apply List.filter_eq_self.mpr
      intro a _
      rfl
    have hperm4 : (get_values db none none none).Perm
        (db.values.filter (passesFilters db none none none)) :=
      List.perm_insertionSort _ _
    rw [hall] at hperm4
    exact hperm4
  · intro hnil
    simp only [get_values, hnil]
    rfl

/-- Concrete instance of the C4 theorem: the store with three type-1
measurements inserted at times 5, 1, 3, queried with the type filter. -/
theorem getValues_filtered_sorted_witness :
    refIntegrity dbTimes = true ∧
    (get_values dbTimes (some 1) none none).Perm
        (dbTimes.values.filter (passesFilters dbTimes (some 1) none none)) ∧
    (get_values dbTimes (some 1) none none).Pairwise (fun a b => a.time ≤ b.time) :=
  ⟨by decide, (getValues_filtered_sorted dbTimes (some 1) none none (by decide)).1,
    (getValues_filtered_sorted dbTimes (some 1) none none (by decide)).2.1⟩

/-- C6: get_value_type signals NoResultFound when no ValueType row with
the id exists, the distinct MultipleResultsFound when several rows with
the id exist, and returns the unique matching row otherwise (the one()
semantics on line 95 of crud.py). -/
theorem getValueType_one_semantics (db : DB) (k : Int) :
    (selectValueTypes db k = [] → get_value_type db k = .error .noResultFound) ∧
    (∀ t, selectValueTypes db k = [t] → get_value_type db k = .ok t) ∧
    (2 ≤ (selectValueTypes db k).length →
        get_value_type db k = .error .multipleResultsFound) := by
  refine ⟨?_, ?_, ?_⟩
  · intro h
    simp [get_value_type, scalarsOne, h]
  · intro t h
    simp [get_value_type, scalarsOne, h]
  · intro h
    cases hsel : selectValueTypes db k with
    | nil => rw [hsel] at h; simp at h
    | cons a rest =>
      cases rest with
      | nil => rw [hsel] at h; simp at h
      | cons b rest2 => simp [get_value_type, hsel, scalarsOne]

/-- Concrete instances of the C6 theorem: the empty store, a store with a
single row of id 1, and a store with a duplicated id 1. -/
theorem getValueType_one_semantics_witness :
    get_value_type DB.empty 1 = .error .noResultFound ∧
    get_value_type dbOneVT 1 = .ok ⟨1, "n", "u"⟩ ∧
    get_value_type dbDupVT 1 = .error .multipleResultsFound :=
  ⟨(getValueType_one_semantics DB.empty 1).1 rfl,
   (getValueType_one_semantics dbOneVT 1).2.1 ⟨1, "n", "u"⟩ (by decide),
   (getValueType_one_semantics dbDupVT 1).2.2 (by decide)⟩

/-- C7 counterexample: on a store holding two DeviceType rows with id 1,
get_device_type signals the distinct MultipleResultsFound — the
one_or_none() call on line 137 of crud.py raises it for more than one row
— rather than treating the case as NotFound-equivalent: the outcome is
neither the NoResultFound signal nor a returned row. -/
theorem getDeviceType_multiple_distinct_signal :
    get_device_type dbDupDev 1 = .error .multipleResultsFound ∧
    (Except.error DbError.multipleResultsFound : Except DbError DeviceType)
        ≠ .error .noResultFound := by
  refine ⟨?_, ?_⟩ <;> decide

/-- C7 as amended: get_device_type returns the stored row when exactly one
row with the id exists, signals NoResultFound when none does, and — like
get_value_type — signals the distinct MultipleResultsFound when more than
one row with the id exists. -/
theorem getDeviceType_lookup_semantics (db : DB) (k : Int) :
    (selectDeviceTypes db k = [] → get_device_type db k = .error .noResultFound) ∧
    (∀ d, selectDeviceTypes db k = [d] → get_device_type db k = .ok d) ∧
    (2 ≤ (selectDeviceTypes db k).length →
        get_device_type db k = .error .multipleResultsFound) := by
  refine ⟨?_, ?_, ?_⟩
  · intro h
    simp [get_device_type, scalarsOneOrNone, h]
  · intro d h
    simp [get_device_type, scalarsOneOrNone, h]
  · intro h
    cases hsel : selectDeviceTypes db k with
    | nil => rw [hsel] at h; simp at h
    | cons a rest =>
      cases rest with
      | nil => rw [hsel] at h; simp at h
      | cons b rest2 => simp [get_device_type, hsel, scalarsOneOrNone]

/-- Concrete instances of the amended C7 theorem. -/
theorem getDeviceType_lookup_semantics_witness :
    get_device_type DB.empty 1 = .error .noResultFound ∧
    get_device_type dbOneDev 1 = .ok ⟨1, "a", "b"⟩ :=
  ⟨(getDeviceType_lookup_semantics DB.empty 1).1 rfl,
   (getDeviceType_lookup_semantics dbOneDev 1).2.1 ⟨1, "a", "b"⟩ (by decide)⟩

theorem dimensionDefaultsOk_iff (db : DB) :
    dimensionDefaultsOk db = true ↔
      ((∀ t ∈ db.valueTypes, t.type_name ≠ "" ∧ t.type_unit ≠ "") ∧
       (∀ d ∈ db.deviceTypes, d.name ≠ "" ∧ d.location ≠ "")) := by
  simp [dimensionDefaultsOk, List.all_eq_true]

theorem upsertVT_preserves_defaults (db : DB) (k : Int) (n u : Option String)
    (h : dimensionDefaultsOk db = true) :
    dimensionDefaultsOk (add_or_update_value_type db k n u).1 = true := by
  rw [dimensionDefaultsOk_iff] at h ⊢
  obtain ⟨hvt, hdt⟩ := h
  cases hl : (selectValueTypes db k).getLast? with
  | none =>
    simp only [add_or_update_value_type, hl]
    refine ⟨?_, hdt⟩
    intro t ht
    rw [List.mem_append] at ht
    cases ht with
    | inl hin => exact hvt t hin
    | inr hnew =>
      rw [List.mem_singleton] at hnew
      subst hnew
      exact ⟨upsertField_ne_empty _ _ _ (defaultTypeName_ne_empty k),
             upsertField_ne_empty _ _ _ (defaultTypeUnit_ne_empty k)⟩
  | some t0 =>
    simp only [add_or_update_value_type, hl]
    refine ⟨?_, hdt⟩
    intro t ht
    rw [List.mem_map] at ht
    obtain ⟨y, hy, hxy⟩ := ht
    by_cases hq : (y.id == k) = true
    · rw [if_pos hq] at hxy
      subst hxy
      exact ⟨upsertField_ne_empty _ _ _ (defaultTypeName_ne_empty k),
             upsertField_ne_empty _ _ _ (defaultTypeUnit_ne_empty k)⟩
    · rw [if_neg hq] at hxy
      subst hxy
      exact hvt y hy

theorem upsertDev_preserves_defaults (db : DB) (k : Int) (n u : Option String)
    (h : dimensionDefaultsOk db = true) :
    dimensionDefaultsOk (add_or_update_device db k n u).1 = true := by
  rw [dimensionDefaultsOk_iff] at h ⊢
  obtain ⟨hvt, hdt⟩ := h
  cases hl : (selectDeviceTypes db k).getLast? with
  | none =>
    simp only [add_or_update_device, hl]
    refine ⟨hvt, ?_⟩
    intro d hd
    rw [List.mem_append] at hd
    cases hd with
    | inl hin => exact hdt d hin
    | inr hnew =>
      rw [List.mem_singleton] at hnew
      subst hnew
      exact ⟨upsertField_ne_empty _ _ _ (defaultDeviceName_ne_empty k),
             upsertField_ne_empty _ _ _ (defaultDeviceLocation_ne_empty k)⟩
  | some d0 =>
    simp only [add_or_update_device, hl]
    refine ⟨hvt, ?_⟩
    intro d hd
    rw [List.mem_map] at hd
    obtain ⟨y, hy, hxy⟩ := hd
    by_cases hq : (y.id == k) = true
    · rw [if_pos hq] at hxy
      subst hxy
      exact ⟨upsertField_ne_empty _ _ _ (defaultDeviceName_ne_empty k),
             upsertField_ne_empty _ _ _ (defaultDeviceLocation_ne_empty k)⟩
    · rw [if_neg hq] at hxy
      subst hxy
      exact hdt y hy

theorem applyOp_preserves_defaults (db : DB) (op : Op)
    (h : dimensionDefaultsOk db = true) :
    dimensionDefaultsOk (applyOp db op) = true := by
  cases op with
  | upsertValueType k n u => exact upsertVT_preserves_defaults db k n u h
  | upsertDevice k n l => exact upsertDev_preserves_defaults db k n l h
  | insertValue t k v =>
    show dimensionDefaultsOk (add_value db t k v) = true
    have hu := upsertVT_preserves_defaults db k none none h
    have heq : dimensionDefaultsOk (add_value db t k v)
        = dimensionDefaultsOk (add_or_update_value_type db k none none).1 := by
      simp [dimensionDefaultsOk, add_value]
    rw [heq]
    exact hu

/-- C9: after any sequence of core operations on a store whose dimension
rows already satisfy the default-synthesis invariant (vacuously so for
the fresh store), every stored ValueType still has a non-empty name and
unit, and every stored DeviceType a non-empty name and location: fields
absent at creation time are filled with the synthesized defaults and no
later operation empties them. -/
theorem coreOps_preserve_dimension_defaults (db : DB) (ops : List Op)
    (h : dimensionDefaultsOk db = true) :
    dimensionDefaultsOk (applyOps db ops) = true := by
  induction ops generalizing db with
  | nil => exact h
  | cons op rest ih =>
    rw [applyOps, List.foldl_cons]
    exact ih (applyOp db op) (applyOp_preserves_defaults db op h)

/-- Concrete instance of the C9 theorem: the sample operation sequence run
on the fresh store. -/
theorem coreOps_preserve_dimension_defaults_witness :
    dimensionDefaultsOk DB.empty = true ∧
    dimensionDefaultsOk (applyOps DB.empty opsSample) = true :=
  ⟨rfl, coreOps_preserve_dimension_defaults DB.empty opsSample rfl⟩

/-- C10: upserts are frame-local to the row they name — a ValueType upsert
of id k changes no DeviceType row, no Value row and no ValueType row whose
id differs from k, and a DeviceType upsert of id k changes no ValueType
row, no Value row and no DeviceType row whose id differs from k. -/
theorem upserts_frame_local (db : DB) (k : Int) (n u nm loc : Option String) :
    ((add_or_update_value_type db k n u).1.deviceTypes = db.deviceTypes) ∧
    ((add_or_update_value_type db k n u).1.values = db.values) ∧
    ((add_or_update_value_type db k n u).1.valueTypes.filter (fun t => t.id != k)
        = db.valueTypes.filter (fun t => t.id != k)) ∧
    ((add_or_update_device db k nm loc).1.valueTypes = db.valueTypes) ∧
    ((add_or_update_device db k nm loc).1.values = db.values) ∧
    ((add_or_update_device db k nm loc).1.deviceTypes.filter (fun d => d.id != k)
        = db.deviceTypes.filter (fun d => d.id != k)) := by
  refine ⟨(upsertVT_frame db k n u).1, (upsertVT_frame db k n u).2.1, ?_,
    (upsertDev_frame db k nm loc).1, (upsertDev_frame db k nm loc).2.1, ?_⟩
  · cases hl : (selectValueTypes db k).getLast? with
    | none =>
      simp only [add_or_update_value_type, hl]
      rw [List.filter_append]
      simp
    | some t =>
      have hm : t ∈ selectValueTypes db k := List.mem_of_mem_getLast? hl
      have htid : t.id = k := by
        simp [selectValueTypes, List.mem_filter] at hm
        exact hm.2
      simp only [add_or_update_value_type, hl]
      have hfr := filter_not_map_update (fun x : ValueType => x.id == k)
        ⟨t.id, upsertField t.type_name n (defaultTypeName k),
         upsertField t.type_unit u (defaultTypeUnit k)⟩ (by simp [htid]) db.valueTypes
      simpa [bne] using hfr
  · cases hl : (selectDeviceTypes db k).getLast? with
    | none =>
      simp only [add_or_update_device, hl]
      rw [List.filter_append]
      simp
    | some d =>
      have hm : d ∈ selectDeviceTypes db k := List.mem_of_mem_getLast? hl
      have hdid : d.id = k := by
        simp [selectDeviceTypes, List.mem_filter] at hm
        exact hm.2
      simp only [add_or_update_device, hl]
      have hfr := filter_not_map_update (fun x : DeviceType => x.id == k)
        ⟨d.id, upsertField d.name nm (defaultDeviceName k),
         upsertField d.location loc (defaultDeviceLocation k)⟩ (by simp [hdid]) db.deviceTypes
      simpa [bne] using hfr

end Rdp
